import Mathlib

/-!
Verification development for the `datman` repository.

Shallow embedding of the modules `datman/kv_store.py`, `datman/manager.py`,
`datman/downloader.py` and `datman/cache.py`.  Text (file contents, keys,
values, filenames) is modelled as `List Char`; file payloads (archive bytes,
cached records) are modelled as abstract blob identifiers of type `Nat`;
the filesystem slots touched by the pipeline are collected in a small record,
and filesystem/network side effects are recorded in an explicit trace so that
frame conditions ("no download happens", "deletion precedes extraction") are
statable.
-/

namespace Datman

/-! ### Python string helpers -/

/-- The characters Python `str.isspace()` holds true of — the set
`str.strip()` removes: the ASCII controls U+0009–U+000D and U+001C–U+001F,
the space, U+0085, and the Unicode spaces U+00A0, U+1680, U+2000–U+200A,
U+2028, U+2029, U+202F, U+205F, U+3000. -/
def isWS (c : Char) : Bool :=
  (0x09 ≤ c.toNat && c.toNat ≤ 0x0d) || (0x1c ≤ c.toNat && c.toNat ≤ 0x1f) ||
  c.toNat = 0x20 || c.toNat = 0x85 || c.toNat = 0xa0 || c.toNat = 0x1680 ||
  (0x2000 ≤ c.toNat && c.toNat ≤ 0x200a) ||
  c.toNat = 0x2028 || c.toNat = 0x2029 || c.toNat = 0x202f ||
  c.toNat = 0x205f || c.toNat = 0x3000

/-- Python `str.strip()`: drop whitespace from both ends. -/
def pyStrip (cs : List Char) : List Char :=
  ((cs.dropWhile isWS).reverse.dropWhile isWS).reverse

/-- Python `str.lower()` (ASCII view, as used on algorithm names and hex digests). -/
def pyLower (cs : List Char) : List Char :=
  cs.map Char.toLower

/-- Python `s.split(sep, 1)` when `sep` occurs: the part before the first
occurrence and the part after it; `none` when `sep` does not occur. -/
def splitFirst (sep : Char) : List Char → Option (List Char × List Char)
  | [] => none
  | c :: rest =>
    if c = sep then some ([], rest)
    else
      match splitFirst sep rest with
      | none => none
      | some (a, b) => some (c :: a, b)

/-- The universal-newlines translation `open(path, "r")` applies while
reading: `"\r\n"` becomes `"\n"` and a bare `"\r"` becomes `"\n"`. -/
def unlAux (prevCR : Bool) : List Char → List Char
  | [] => []
  | c :: rest =>
    if c = '\n' then
      if prevCR then unlAux false rest
      else '\n' :: unlAux false rest
    else if c = '\r' then '\n' :: unlAux true rest
    else c :: unlAux false rest

/-- The universal-newlines translation as a whole: a `"\n"` right after a
`"\r"` is swallowed as the second half of a `"\r\n"`. -/
def unlTranslate (cs : List Char) : List Char :=
  unlAux false cs

/-- Iterating over an open Python text file yields its (already
newline-translated) lines, each including its terminating newline; a final
unterminated chunk is yielded without one. -/
def splitLines : List Char → List (List Char)
  | [] => []
  | c :: rest =>
    if c = '\n' then ['\n'] :: splitLines rest
    else
      match splitLines rest with
      | [] => [[c]]
      | l :: ls => (c :: l) :: ls

/-! ### Python `dict` as an insertion-ordered association list -/

/-- `d[k] = v` on a Python dict: update in place if the key is present
(keeping its position), otherwise append at the end. -/
def dictUpd {α β : Type} [BEq α] (d : List (α × β)) (k : α) (v : β) : List (α × β) :=
  if d.any (fun p => p.1 == k) then
    d.map (fun p => if p.1 == k then (k, v) else p)
  else d ++ [(k, v)]

/-- `d.get(k)` on a Python dict. -/
def dictFind {α β : Type} [BEq α] (d : List (α × β)) (k : α) : Option β :=
  (d.find? (fun p => p.1 == k)).map Prod.snd

/-! ### Errors -/

/-- The Python exceptions raised by the embedded code.  Message strings keep
the stable part of the source message (interpolated paths/reprs elided). -/
inductive PyErr : Type
  | valueError (msg : String)
  | runtimeError (msg : String)
  | other (msg : String)
deriving DecidableEq, Repr

/-! ### `datman/kv_store.py` -/

/-- One line of `load_kv`'s loop body: strip, skip blank lines, split on the
first `:`; a stripped non-blank line without `:` is a `ValueError`, which the
surrounding `try` wraps into a `RuntimeError`. -/
def loadKvLines : List (List Char) → List (List Char × List Char) →
    Except PyErr (List (List Char × List Char))
  | [], d => .ok d
  | line :: rest, d =>
    let s := pyStrip line
    if s = [] then loadKvLines rest d
    else
      match splitFirst ':' s with
      | none => .error (.runtimeError "Error reading key-value file")
      | some (k, v) => loadKvLines rest (dictUpd d k v)

/-- `load_kv` (with `int_key=False`, the instantiation the status store uses)
on the raw content of an existing file: the text-mode read applies the
universal-newlines translation before the file is iterated line by line. -/
def loadKv (content : List Char) : Except PyErr (List (List Char × List Char)) :=
  loadKvLines (splitLines (unlTranslate content)) []

/-- `save_kv`: truncate-and-rewrite the file as `key:value\n` lines in dict
order; returns the new file content. -/
def saveKv (d : List (List Char × List Char)) : List Char :=
  d.foldr (fun p acc => p.1 ++ ':' :: (p.2 ++ '\n' :: acc)) []

/-! ### Filesystem state and effect trace

The slots of the on-disk state that the pipeline reads or writes.  `artifact`
is the file at the downloader's final `file_path`, `tmp` the file at the
temporary download path, `dataDir` the computed data directory (its value is
the blob identifier of the archive it was extracted from; a stale or
manually created directory may hold any value), `extractRoot` whether the
extraction root directory exists, `statusFile` the content of `<root>/STATUS`.
-/

/-- The `SupportedArchives` literal type. -/
inductive ArchiveType : Type
  | zip
  | tar
deriving DecidableEq, Repr

structure FS : Type where
  statusFile : Option (List Char)
  artifact : Option Nat
  tmp : Option Nat
  dataDir : Option Nat
  extractRoot : Bool
deriving DecidableEq, Repr

/-- Observable side effects, recorded in order of occurrence. -/
inductive Eff : Type
  | mkdirFolder
  | verifyFile
  | netDownload
  | writeTmp
  | unlinkTmp
  | renameTmp
  | rmtreeData
  | mkdirExtract
  | extractArchive (t : ArchiveType)
  | patchCall (arg : List Char)
  | writeStatusFile
  | unlinkStatusFile
deriving DecidableEq, Repr

/-! ### `datman/downloader.py`: hashing helpers -/

/-- The ambient `hashlib` capability: which algorithm names are in
`hashlib.algorithms_available`, which names `hashlib` has as attributes, and
the digest (hex string) it computes for a blob under an algorithm. -/
structure HashLib : Type where
  available : List Char → Bool
  hasAttr : List Char → Bool
  digest : List Char → Nat → List Char

/-- The algorithm names the source hard-codes as always supported. -/
def baseAlgos : List (List Char) :=
  ["md5".data, "sha1".data, "sha256".data, "sha512".data]

/-- `checksum(file_path, algorithm)`: lower-case the name; when it is neither
available nor in the hard-coded set, fall back to a `hashlib` attribute and
raise `ValueError` if there is none; otherwise compute the digest of the
file's content `c`. -/
def checksum (hl : HashLib) (c : Nat) (algorithm : List Char) :
    Except PyErr (List Char) :=
  let alg := pyLower algorithm
  if ¬ hl.available alg ∧ ¬ baseAlgos.contains alg then
    if hl.hasAttr alg then .ok (hl.digest alg c)
    else .error (.valueError "Unsupported hash algorithm")
  else .ok (hl.digest alg c)

/-- `verify_checksum(file_path, expected_digest, skip)` on a file whose
content is the blob `c`. -/
def verify_checksum (hl : HashLib) (c : Nat) (expected : Option (List Char))
    (skip : Bool) : Except PyErr Bool :=
  if skip then .ok true
  else
    match expected with
    | none => .ok true
    | some e =>
      if e = [] then .ok true
      else
        let p : List Char × List Char :=
          match splitFirst ':' e with
          | some (a, d) => (pyLower a, d)
          | none => ("sha256".data, e)
        match checksum hl c p.1 with
        | .error err => .error err
        | .ok actual => .ok (pyLower actual == pyLower p.2)

/-! ### `datman/downloader.py`: archive-type detection -/

/-- Python `str.split('.')` (full split; `""` splits to `[""]`). -/
def splitOnDot : List Char → List (List Char)
  | [] => [[]]
  | c :: rest =>
    if c = '.' then [] :: splitOnDot rest
    else
      match splitOnDot rest with
      | [] => [[c]]
      | s :: ss => (c :: s) :: ss

/-- `pathlib.PurePath.suffixes` of a plain file name: empty for a name ending
in a dot, otherwise strip leading dots, split on `.` and re-prefix each tail
part with a dot. -/
def pySuffixes (name : List Char) : List (List Char) :=
  if name.getLast? = some '.' then []
  else
    match splitOnDot (name.dropWhile (fun c => c = '.')) with
    | [] => []
    | _ :: rest => rest.map (fun s => '.' :: s)

/-- `detect_archive_type(file_path)` over the file's name. -/
def detect_archive_type (name : List Char) : Except PyErr ArchiveType :=
  let sfx := pySuffixes name
  if sfx.contains ".zip".data then .ok .zip
  else if sfx.contains ".tar".data || sfx.contains ".tgz".data
      || sfx.contains ".tar.gz".data then .ok .tar
  else .error (.valueError "Unsupported archive file extension")

/-! ### `datman/downloader.py`: `with_suffix` and the temporary name -/

/-- Index of the last `.` in a name, `none` when there is no dot. -/
def rfindDot : List Char → Option Nat
  | [] => none
  | c :: rest =>
    match rfindDot rest with
    | some i => some (i + 1)
    | none => if c = '.' then some 0 else none

/-- Start index of `pathlib`'s `suffix` of a plain name: the last dot,
provided it is neither the first nor the last character. -/
def pySuffixStart (cs : List Char) : Option Nat :=
  match rfindDot cs with
  | some i => if 0 < i ∧ i + 1 < cs.length then some i else none
  | none => none

/-- `pathlib.PurePath.suffix` of a plain name. -/
def pySuffix (cs : List Char) : List Char :=
  match pySuffixStart cs with
  | some i => cs.drop i
  | none => []

/-- The literal suffix the source hands to `with_suffix`. -/
def TMP_SUFFIX : List Char := ".zip.part".data

/-- `file_path.with_suffix(".zip.part")` on the file's name: replace the
existing suffix when there is one, else append. -/
def tmpName (cs : List Char) : List Char :=
  match pySuffixStart cs with
  | some i => cs.take i ++ TMP_SUFFIX
  | none => cs ++ TMP_SUFFIX

/-! ### `datman/downloader.py`: the `Downloader` class -/

/-- `Downloader` instance state (the path fields are kept as the data the
claims consume: the artifact's file name, whether a `data_path` was given,
and configuration). -/
structure Downloader : Type where
  filename : List Char
  chksum : Option (List Char)
  archive_type : Option ArchiveType
  hasDataPath : Bool
  skip_verify : Bool
deriving Repr

/-- `Downloader.__init__`: stores the arguments; `skip_verify` is forced to
`True` when no checksum was provided.  The constructor performs no
validation of the checksum string and raises nothing. -/
def Downloader.init (filename : List Char) (chksum : Option (List Char))
    (atype : Option ArchiveType) (hasDataPath : Bool) (skip_verify : Bool) :
    Downloader :=
  { filename := filename, chksum := chksum, archive_type := atype,
    hasDataPath := hasDataPath,
    skip_verify := skip_verify || chksum.isNone }

/-- `Downloader.verify(file_path)` on a file whose content is `c`. -/
def Downloader.verifyC (dv : Downloader) (hl : HashLib) (c : Nat) :
    Except PyErr Bool :=
  verify_checksum hl c dv.chksum dv.skip_verify

/-- The module-level `download(url, file_path, verify_checksum_func)` helper:
stream the remote bytes `net` into the temporary file, verify the temporary
file, delete it and raise on mismatch, rename it into place on success (a
raise from the verify function itself propagates with the temporary file
left behind). -/
def download (net : Nat) (verifyFn : Nat → Except PyErr Bool) (fs : FS) :
    FS × List Eff × Option PyErr :=
  let fs1 : FS := { fs with tmp := some net }
  match verifyFn net with
  | .error e => (fs1, [.netDownload, .writeTmp], some e)
  | .ok false =>
    ({ fs1 with tmp := none }, [.netDownload, .writeTmp, .unlinkTmp],
      some (.runtimeError "Downloaded file checksum does not match"))
  | .ok true =>
    ({ fs1 with tmp := none, artifact := some net },
      [.netDownload, .writeTmp, .renameTmp], none)

/-- The module-level `extract(file_path, extract_path, archive_type)` helper,
expanding the archive whose content is `c`: detect the type from the file
name when none is given, then expand.  A successful expansion recreates the
data directory with the archive's content (the archive is taken to contain
the remote's root folder). -/
def extractHelper (name : List Char) (atype : Option ArchiveType) (c : Nat)
    (fs : FS) : FS × List Eff × Option PyErr :=
  let det : Except PyErr ArchiveType :=
    match atype with
    | none => detect_archive_type name
    | some t => .ok t
  match det with
  | .error e => (fs, [], some e)
  | .ok t => ({ fs with dataDir := some c }, [.extractArchive t], none)

/-- `Downloader.extract`: fail fast when the artifact file is missing; delete
a pre-existing data directory; create the extraction root; expand.  Note the
source calls the helper as `extract(self.file_path, self.extract_path)`,
passing no archive type, so the helper always receives `None` there. -/
def Downloader.extractM (dv : Downloader) (fs : FS) :
    FS × List Eff × Option PyErr :=
  match fs.artifact with
  | none => (fs, [], some (.runtimeError "Cannot extract, file does not exist"))
  | some c =>
    let s1 : FS × List Eff :=
      if dv.hasDataPath && fs.dataDir.isSome then
        ({ fs with dataDir := none }, [Eff.rmtreeData])
      else (fs, [])
    let fs2 : FS := { s1.1 with extractRoot := true }
    match extractHelper dv.filename none c fs2 with
    | (fs3, tr3, err) => (fs3, s1.2 ++ Eff.mkdirExtract :: tr3, err)

/-- `Downloader.download_and_extract()`: create the download folder, verify
an existing artifact in place, (re)download when absent or unverified, then
extract.  `net` is the blob the URL currently serves. -/
def Downloader.download_and_extract (dv : Downloader) (hl : HashLib)
    (net : Nat) (fs : FS) : FS × List Eff × Option PyErr :=
  match fs.artifact with
  | none =>
    match download net (dv.verifyC hl) fs with
    | (fs1, tr1, some e) => (fs1, Eff.mkdirFolder :: tr1, some e)
    | (fs1, tr1, none) =>
      match dv.extractM fs1 with
      | (fs2, tr2, err) => (fs2, Eff.mkdirFolder :: (tr1 ++ tr2), err)
  | some c =>
    match dv.verifyC hl c with
    | .error e => (fs, [Eff.mkdirFolder, Eff.verifyFile], some e)
    | .ok true =>
      match dv.extractM fs with
      | (fs2, tr2, err) => (fs2, Eff.mkdirFolder :: Eff.verifyFile :: tr2, err)
    | .ok false =>
      match download net (dv.verifyC hl) fs with
      | (fs1, tr1, some e) =>
        (fs1, Eff.mkdirFolder :: Eff.verifyFile :: tr1, some e)
      | (fs1, tr1, none) =>
        match dv.extractM fs1 with
        | (fs2, tr2, err) =>
          (fs2, Eff.mkdirFolder :: Eff.verifyFile :: (tr1 ++ tr2), err)

/-! ### `datman/manager.py` -/

/-- The two persisted statuses. -/
inductive Status : Type
  | NONE
  | OK
deriving DecidableEq, Repr

/-- `Status.value`: the persisted string. -/
def Status.value : Status → List Char
  | .NONE => "NONE".data
  | .OK => "OK".data

/-- `Status(status_str)`: the enum lookup, `none` standing for the
`ValueError` branch. -/
def statusOfString (s : List Char) : Option Status :=
  if s = "NONE".data then some Status.NONE
  else if s = "OK".data then some Status.OK
  else none

/-- `DataManager.get_status`: a missing file is `NONE`; a file `load_kv`
cannot parse is deleted and reported as `NONE`; a missing entry defaults to
`"NONE"`; an unrecognized value is reported as `NONE`. -/
def getStatus (dataset_id : List Char) (fs : FS) : Status × FS × List Eff :=
  match fs.statusFile with
  | none => (Status.NONE, fs, [])
  | some content =>
    match loadKv content with
    | .error _ => (Status.NONE, { fs with statusFile := none }, [.unlinkStatusFile])
    | .ok statuses =>
      let s := (dictFind statuses dataset_id).getD "NONE".data
      match statusOfString s with
      | some st => (st, fs, [])
      | none => (Status.NONE, fs, [])

/-- `DataManager.set_status`: merge into the statuses parsed from an existing
readable file (a corrupt or missing file contributes an empty dict) and
rewrite the file. -/
def setStatus (dataset_id : List Char) (st : Status) (fs : FS) :
    FS × List Eff :=
  let statuses : List (List Char × List Char) :=
    match fs.statusFile with
    | none => []
    | some c =>
      match loadKv c with
      | .ok d => d
      | .error _ => []
  let d := dictUpd statuses dataset_id st.value
  ({ fs with statusFile := some (saveKv d) }, [Eff.writeStatusFile])

/-- A member of the `patches` list: a callable receiving the data-directory
path (returning unit or raising), or a non-callable object. -/
inductive PatchObj : Type
  | callable (f : List Char → Except PyErr Unit)
  | notCallable

/-- The loop body of `_apply_patches`: raise `ValueError` on a non-callable
entry before calling it, call callables in list order with the path string,
propagate the first raise. -/
def applyPatchesGo (arg : List Char) : List PatchObj → List Eff × Option PyErr
  | [] => ([], none)
  | .notCallable :: _ => ([], some (.valueError "Patch is not callable"))
  | .callable f :: rest =>
    match f arg with
    | .error e => ([.patchCall arg], some e)
    | .ok _ =>
      match applyPatchesGo arg rest with
      | (tr, r) => (.patchCall arg :: tr, r)

/-- `DataManager._apply_patches`: a `None` patch list is a no-op. -/
def applyPatches (arg : List Char) : Option (List PatchObj) →
    List Eff × Option PyErr
  | none => ([], none)
  | some ps => applyPatchesGo arg ps

/-- `DataManager` instance state used by `_download_and_extract`. -/
structure Manager : Type where
  dataset_id : List Char
  data_path : List Char
  patches : Option (List PatchObj)
  dv : Downloader

/-- `DataManager._download_and_extract` (the "ensure ready" check): return
at once when the persisted status is `OK`; otherwise fetch-extract, apply
the patches to `str(self.data_path)`, and only then persist `OK`. -/
def managerRun (m : Manager) (hl : HashLib) (net : Nat) (fs : FS) :
    FS × List Eff × Option PyErr :=
  match getStatus m.dataset_id fs with
  | (st, fs1, tr1) =>
    if st = Status.OK then (fs1, tr1, none)
    else
      match m.dv.download_and_extract hl net fs1 with
      | (fs2, tr2, some e) => (fs2, tr1 ++ tr2, some e)
      | (fs2, tr2, none) =>
        match applyPatches m.data_path m.patches with
        | (tr3, some e) => (fs2, tr1 ++ tr2 ++ tr3, some e)
        | (tr3, none) =>
          match setStatus m.dataset_id Status.OK fs2 with
          | (fs3, tr4) => (fs3, tr1 ++ tr2 ++ tr3 ++ tr4, none)

/-! ### `datman/cache.py`: `SimpleCache`

Keys are Python ints or strings (non-negative ints modelled, as exercised by
the index's ordinal slots); records are abstract blobs.  The state gathers
the in-memory `index` and `cache` dicts, the backing files under
`<root>/data` (name mapped to the stored blob) and the persisted index file.
-/

/-- A `SimpleCache` key: `isinstance(key, int)` or a string. -/
inductive CKey : Type
  | i (n : Nat)
  | s (str : List Char)
deriving DecidableEq, Repr

/-- `f"{key}"`. -/
def keyStr : CKey → List Char
  | .i n => Nat.toDigits 10 n
  | .s str => str

/-- `IOBackend._add_extension_if_missing` on the file's name: append the
backend extension unless the name's suffix already equals it. -/
def addExtIfMissing (name ext : List Char) : List Char :=
  if pySuffix name = ext then name else name ++ ext

structure CacheSt : Type where
  index : List (Nat × List Char)
  files : List (List Char × Nat)
  mem : List (CKey × Nat)
  indexFile : Option (List Char)
deriving DecidableEq, Repr

/-- `save_kv` on the integer-keyed index dict (`f"{key}:{value}\n"` lines). -/
def saveKvNat (d : List (Nat × List Char)) : List Char :=
  d.foldr (fun p acc => Nat.toDigits 10 p.1 ++ ':' :: (p.2 ++ '\n' :: acc)) []

/-- `SimpleCache.save(key, data)`, inlining `_save` and the synchronous
`save_index`: an int key `n` is recorded in the index at slot `n` as
`sample_<n>`, a string key at slot `len(index)`; the backing file is written
under `data/<key>` with the backend extension; the in-memory mirror is
updated when enabled; then the index file is rewritten. -/
def cacheSave (keepMem : Bool) (ext : List Char) (st : CacheSt) (key : CKey)
    (data : Nat) : CacheSt :=
  let index' : List (Nat × List Char) :=
    match key with
    | .i n => dictUpd st.index n ("sample_".data ++ Nat.toDigits 10 n)
    | .s s0 => dictUpd st.index st.index.length s0
  let fname := addExtIfMissing (keyStr key) ext
  let files' := dictUpd st.files fname data
  let mem' := if keepMem then dictUpd st.mem key data else st.mem
  { index := index', files := files', mem := mem',
    indexFile := some (saveKvNat index') }

/-- `SimpleCache.__len__`. -/
def cacheLen (st : CacheSt) : Nat :=
  st.index.length

deriving instance DecidableEq for Except

/-! ### Predicates about patch behaviour -/

/-- The call of patch `p` on `arg` returns normally. -/
def patchOk (p : PatchObj) (arg : List Char) : Prop :=
  match p with
  | .callable f => f arg = .ok ()
  | .notCallable => False

/-- Running patch `p` on `arg` raises `e`: a callable raising `e`, or a
non-callable entry (whose raise is the fixed `ValueError`). -/
def patchFails (p : PatchObj) (arg : List Char) (e : PyErr) : Prop :=
  match p with
  | .callable f => f arg = .error e
  | .notCallable => e = PyErr.valueError "Patch is not callable"

/-- The patch-call events emitted while running the failing patch itself:
one call for a raising callable, none for a non-callable entry. -/
def failCallTrace (p : PatchObj) (arg : List Char) : List Eff :=
  match p with
  | .callable _ => [.patchCall arg]
  | .notCallable => []

/-! ## Theorems -/

/-- C4: `get_status` never raises: a missing status file, an absent entry for
the identifier, and an unrecognized status value all yield `NONE` with the
file untouched; a structurally corrupt file (one `load_kv` rejects) also
yields `NONE`, and the file is deleted rather than repaired in place. -/
theorem c4_get_status_total (dataset_id : List Char) (fs : FS) :
    (fs.statusFile = none → getStatus dataset_id fs = (Status.NONE, fs, [])) ∧
    (∀ c d, fs.statusFile = some c → loadKv c = .ok d →
      dictFind d dataset_id = none →
      getStatus dataset_id fs = (Status.NONE, fs, [])) ∧
    (∀ c d v, fs.statusFile = some c → loadKv c = .ok d →
      dictFind d dataset_id = some v → statusOfString v = none →
      getStatus dataset_id fs = (Status.NONE, fs, [])) ∧
    (∀ c e, fs.statusFile = some c → loadKv c = .error e →
      getStatus dataset_id fs =
        (Status.NONE, { fs with statusFile := none }, [Eff.unlinkStatusFile])) := by
  refine ⟨?_, ?_, ?_, ?_⟩
  · intro h
    unfold getStatus
    rw [h]
  · intro c d hc hd hfind
    unfold getStatus
    rw [hc]
    simp only [hd, hfind, Option.getD]
    rfl
  · intro c d v hc hd hfind hval
    unfold getStatus
    rw [hc]
    simp only [hd, hfind, Option.getD, hval]
  · intro c e hc he
    unfold getStatus
    rw [hc]
    simp only [he]

/-- C4 witness: the four cases at concrete inputs: no file; a well-formed
file without the identifier; a well-formed file with an unknown value; a
corrupt file, which is deleted. -/
theorem c4_get_status_total_witness :
    getStatus "ds".data ⟨none, none, none, none, false⟩
      = (Status.NONE, ⟨none, none, none, none, false⟩, []) ∧
    getStatus "ds".data ⟨some "other:OK\n".data, none, none, none, false⟩
      = (Status.NONE, ⟨some "other:OK\n".data, none, none, none, false⟩, []) ∧
    getStatus "ds".data ⟨some "ds:WEIRD\n".data, none, none, none, false⟩
      = (Status.NONE, ⟨some "ds:WEIRD\n".data, none, none, none, false⟩, []) ∧
    getStatus "ds".data ⟨some "nocolon\n".data, none, none, none, false⟩
      = (Status.NONE, ⟨none, none, none, none, false⟩, [Eff.unlinkStatusFile]) := by
  refine ⟨(c4_get_status_total "ds".data _).1 rfl,
    (c4_get_status_total "ds".data _).2.1 "other:OK\n".data
      [("other".data, "OK".data)] rfl (by decide) (by decide),
    (c4_get_status_total "ds".data _).2.2.1 "ds:WEIRD\n".data
      [("ds".data, "WEIRD".data)] "WEIRD".data rfl (by decide) (by decide) (by decide),
    (c4_get_status_total "ds".data _).2.2.2 "nocolon\n".data
      (PyErr.runtimeError "Error reading key-value file") rfl (by decide)⟩

/-- C6 (code bug): `Downloader.extract` never forwards the configured
`archive_type` to the `extract` helper, so an explicitly configured type is
ignored and the type is always inferred from the filename: a downloader
configured `tar` with filename `data.zip` extracts as `zip`, and one
configured `zip` with filename `data.bin` fails with the unsupported-format
error instead of extracting as `zip`; the suffix-chain inference itself maps
`.zip` to zip, `.tar`/`.tgz`/compound `.tar.*` to tar, anything else to an
error. -/
theorem c6_explicit_archive_type_ignored :
    (Downloader.extractM
        { filename := "data.zip".data, chksum := none,
          archive_type := some ArchiveType.tar, hasDataPath := false,
          skip_verify := true }
        ⟨none, some 7, none, none, false⟩).2.1
      = [Eff.mkdirExtract, Eff.extractArchive ArchiveType.zip] ∧
    (Downloader.extractM
        { filename := "data.bin".data, chksum := none,
          archive_type := some ArchiveType.zip, hasDataPath := false,
          skip_verify := true }
        ⟨none, some 7, none, none, false⟩).2.2
      = some (PyErr.valueError "Unsupported archive file extension") ∧
    detect_archive_type "a.zip".data = .ok ArchiveType.zip ∧
    detect_archive_type "a.tar".data = .ok ArchiveType.tar ∧
    detect_archive_type "a.tgz".data = .ok ArchiveType.tar ∧
    detect_archive_type "a.tar.gz".data = .ok ArchiveType.tar ∧
    detect_archive_type "a.tar.bz2".data = .ok ArchiveType.tar ∧
    detect_archive_type "a.rar".data
      = .error (PyErr.valueError "Unsupported archive file extension") := by
  decide

/-- C7 counterexample: a `Downloader` constructed with the checksum string
`"md42:abcd"` (an unsupported algorithm) is built without any error —
`__init__` stores the string unvalidated, with verification still armed —
and the `ValueError` surfaces only at the first verification. -/
theorem c7_counterexample :
    Downloader.init "d.zip".data (some "md42:abcd".data) none false false =
      { filename := "d.zip".data, chksum := some "md42:abcd".data,
        archive_type := none, hasDataPath := false, skip_verify := false } ∧
    Downloader.verifyC
        (Downloader.init "d.zip".data (some "md42:abcd".data) none false false)
        { available := fun _ => false, hasAttr := fun _ => false,
          digest := fun _ _ => [] } 0
      = .error (PyErr.valueError "Unsupported hash algorithm") := by
  exact ⟨rfl, rfl⟩

/-- C8 (code bug): saving under the integer key `5` on a fresh cache with a
`.npy` backend records `sample_5` at slot `5` and rewrites the index file
synchronously, but the backing file is written under `data/5.npy` — the
recorded key `sample_5` resolves (via the backend's extension rule) to
`data/sample_5.npy`, which does not exist, violating the every-entry-names-
an-existing-backing-file invariant. -/
theorem c8_int_key_entry_names_missing_file :
    (cacheSave true ".npy".data ⟨[], [], [], none⟩ (CKey.i 5) 42).index
      = [(5, "sample_5".data)] ∧
    (cacheSave true ".npy".data ⟨[], [], [], none⟩ (CKey.i 5) 42).files
      = [("5.npy".data, 42)] ∧
    (cacheSave true ".npy".data ⟨[], [], [], none⟩ (CKey.i 5) 42).indexFile
      = some (saveKvNat [(5, "sample_5".data)]) ∧
    dictFind (cacheSave true ".npy".data ⟨[], [], [], none⟩ (CKey.i 5) 42).files
      (addExtIfMissing "sample_5".data ".npy".data) = none := by
  decide

/-- C10: saving twice under the same string key `"x"` appends a second index
entry instead of reusing the first: `len` is `2` and both ordinals `0` and
`1` resolve to `"x"`. -/
theorem c10_duplicate_string_key_appends :
    cacheLen (cacheSave true ".npy".data
        (cacheSave true ".npy".data ⟨[], [], [], none⟩ (CKey.s "x".data) 1)
        (CKey.s "x".data) 2) = 2 ∧
    dictFind (cacheSave true ".npy".data
        (cacheSave true ".npy".data ⟨[], [], [], none⟩ (CKey.s "x".data) 1)
        (CKey.s "x".data) 2).index 0 = some "x".data ∧
    dictFind (cacheSave true ".npy".data
        (cacheSave true ".npy".data ⟨[], [], [], none⟩ (CKey.s "x".data) 1)
        (CKey.s "x".data) 2).index 1 = some "x".data := by
  decide

/-- C5: in `Downloader.extract` the artifact-existence check strictly
precedes any destructive action: a missing artifact raises the
missing-artifact error with the state (in particular the data directory)
untouched and no deletion event; when the artifact exists and the data
directory already exists, the directory is recursively deleted first, and a
successful expansion leaves the data directory holding exactly the fresh
extraction of the artifact, independent of what the directory held before. -/
theorem c5_extract_check_precedes_delete (dv : Downloader) (fs : FS) :
    (fs.artifact = none →
      Downloader.extractM dv fs =
        (fs, [], some (PyErr.runtimeError "Cannot extract, file does not exist"))) ∧
    (∀ c, fs.artifact = some c → dv.hasDataPath = true → fs.dataDir.isSome = true →
      ∃ tr, (Downloader.extractM dv fs).2.1 = Eff.rmtreeData :: Eff.mkdirExtract :: tr ∧
        Eff.rmtreeData ∉ tr ∧
        ((Downloader.extractM dv fs).2.2 = none →
          ∃ t, tr = [Eff.extractArchive t] ∧
            (Downloader.extractM dv fs).1.dataDir = some c)) := by
  constructor
  · intro h
    unfold Downloader.extractM
    rw [h]
  · intro c hart hdp hdd
    unfold Downloader.extractM extractHelper
    rw [hart]
    simp only [hdp, hdd, Bool.and_self, if_pos]
    cases hdet : detect_archive_type dv.filename with
    | error e =>
      refine ⟨[], by simp [hdet], by simp, ?_⟩
      simp [hdet]
    | ok t =>
      refine ⟨[Eff.extractArchive t], by simp [hdet], by simp, ?_⟩
      intro
      exact ⟨t, rfl, by simp [hdet]⟩

/-- C5 witness: a missing artifact fails without deleting the stale data
directory; with the artifact present (`data.zip`) and a stale data
directory, deletion strictly precedes a successful zip expansion whose
result is the fresh copy. -/
theorem c5_extract_check_precedes_delete_witness :
    (Downloader.extractM
        { filename := "data.zip".data, chksum := none, archive_type := none,
          hasDataPath := true, skip_verify := true }
        ⟨none, none, none, some 3, false⟩ =
      (⟨none, none, none, some 3, false⟩, [],
        some (PyErr.runtimeError "Cannot extract, file does not exist"))) ∧
    (∃ tr, (Downloader.extractM
        { filename := "data.zip".data, chksum := none, archive_type := none,
          hasDataPath := true, skip_verify := true }
        ⟨none, some 7, none, some 3, false⟩).2.1
          = Eff.rmtreeData :: Eff.mkdirExtract :: tr ∧
      Eff.rmtreeData ∉ tr ∧
      ((Downloader.extractM
          { filename := "data.zip".data, chksum := none, archive_type := none,
            hasDataPath := true, skip_verify := true }
          ⟨none, some 7, none, some 3, false⟩).2.2 = none →
        ∃ t, tr = [Eff.extractArchive t] ∧
          (Downloader.extractM
              { filename := "data.zip".data, chksum := none, archive_type := none,
                hasDataPath := true, skip_verify := true }
              ⟨none, some 7, none, some 3, false⟩).1.dataDir = some 7)) := by
  exact ⟨(c5_extract_check_precedes_delete _ _).1 rfl,
    (c5_extract_check_precedes_delete _ _).2 7 rfl rfl rfl⟩

/-! ### Facts about `rfindDot` and the temporary download name -/

theorem rfindDot_eq_none (cs : List Char) (h : rfindDot cs = none) : '.' ∉ cs := by
  induction cs with
  | nil => simp
  | cons c rest ih =>
    unfold rfindDot at h
    cases hr : rfindDot rest with
    | some i => rw [hr] at h; exact absurd h (by simp)
    | none =>
      rw [hr] at h
      by_cases hc : c = '.'
      · rw [if_pos hc] at h; exact absurd h (by simp)
      · rw [if_neg hc] at h
        simp only [List.mem_cons]
        rintro (rfl | hm)
        · exact hc rfl
        · exact ih hr hm

theorem rfindDot_no_dot_after (cs : List Char) (i : Nat)
    (h : rfindDot cs = some i) : '.' ∉ cs.drop (i + 1) := by
  induction cs generalizing i with
  | nil => simp [rfindDot] at h
  | cons c rest ih =>
    unfold rfindDot at h
    cases hr : rfindDot rest with
    | some j =>
      rw [hr] at h
      obtain rfl : j + 1 = i := by simpa using h
      simpa using ih j hr
    | none =>
      rw [hr] at h
      by_cases hc : c = '.'
      · rw [if_pos hc] at h
        obtain rfl : (0 : Nat) = i := by simpa using h
        simpa using rfindDot_eq_none rest hr
      · rw [if_neg hc] at h
        exact absurd h (by simp)

theorem pySuffixStart_eq_some (cs : List Char) (i : Nat)
    (h : pySuffixStart cs = some i) :
    rfindDot cs = some i ∧ 0 < i ∧ i + 1 < cs.length := by
  unfold pySuffixStart at h
  cases hr : rfindDot cs with
  | none => rw [hr] at h; simp at h
  | some j =>
    rw [hr] at h
    dsimp only at h
    by_cases hij : 0 < j ∧ j + 1 < cs.length
    · rw [if_pos hij] at h
      obtain rfl : j = i := by simpa using h
      exact ⟨rfl, hij.1, hij.2⟩
    · rw [if_neg hij] at h; simp at h

/-- The temporary download name produced by `with_suffix(".zip.part")` is
never the final artifact name: a `pathlib` suffix holds exactly one dot,
while `".zip.part"` holds two. -/
theorem tmpName_ne (cs : List Char) : tmpName cs ≠ cs := by
  cases hs : pySuffixStart cs with
  | none =>
    simp only [tmpName, hs]
    intro heq
    have := congrArg List.length heq
    simp [TMP_SUFFIX] at this
  | some i =>
    simp only [tmpName, hs]
    obtain ⟨hr, hpos, hlen⟩ := pySuffixStart_eq_some cs i hs
    intro heq
    have hsplit : cs.take i ++ cs.drop i = cs := List.take_append_drop i cs
    have hdrop : TMP_SUFFIX = cs.drop i := by
      have hab : cs.take i ++ TMP_SUFFIX = cs.take i ++ cs.drop i := by
        rw [heq, hsplit]
      exact List.append_cancel_left hab
    have h2 : '.' ∈ cs.drop (i + 1) := by
      have h1 : cs.drop (i + 1) = List.drop 1 (cs.drop i) := by
        rw [List.drop_drop]
      rw [h1, ← hdrop]
      decide
    exact rfindDot_no_dot_after cs i hr h2

/-- C3: the (re)download protocol of the `download` helper (invoked by
`download_and_extract` exactly when the artifact is absent or fails in-place
verification): the bytes go to a temporary file whose name always differs
from the final name; the temporary file is verified and on failure it is
deleted, an integrity `RuntimeError` is raised with no retry, and the final
artifact slot is untouched; only on success is the temporary file renamed to
the final name.  The last two conjuncts evaluate those same guarantees
through `download_and_extract`'s two re-download call sites. -/
theorem c3_download_atomic (name : List Char) (fs : FS) (net : Nat)
    (vf : Nat → Except PyErr Bool) (dv : Downloader) (hl : HashLib) :
    tmpName name ≠ name ∧
    (vf net = .ok false →
      download net vf fs =
        ({ fs with tmp := none },
          [Eff.netDownload, Eff.writeTmp, Eff.unlinkTmp],
          some (PyErr.runtimeError "Downloaded file checksum does not match"))) ∧
    (vf net = .ok true →
      download net vf fs =
        ({ fs with tmp := none, artifact := some net },
          [Eff.netDownload, Eff.writeTmp, Eff.renameTmp], none)) ∧
    (fs.artifact = none → dv.verifyC hl net = .ok false →
      dv.download_and_extract hl net fs =
        ({ fs with tmp := none },
          [Eff.mkdirFolder, Eff.netDownload, Eff.writeTmp, Eff.unlinkTmp],
          some (PyErr.runtimeError "Downloaded file checksum does not match"))) ∧
    (∀ c, fs.artifact = some c → dv.verifyC hl c = .ok false →
      dv.verifyC hl net = .ok false →
      dv.download_and_extract hl net fs =
        ({ fs with tmp := none },
          [Eff.mkdirFolder, Eff.verifyFile, Eff.netDownload, Eff.writeTmp,
            Eff.unlinkTmp],
          some (PyErr.runtimeError "Downloaded file checksum does not match"))) := by
  refine ⟨tmpName_ne name, ?_, ?_, ?_, ?_⟩
  · intro h
    unfold download
    rw [h]
  · intro h
    unfold download
    rw [h]
  · intro hart h
    simp only [Downloader.download_and_extract, download, hart, h]
  · intro c hart hold h
    simp only [Downloader.download_and_extract, download, hart, hold, h]

/-- C3 witness: concrete run with filename `data.zip`, a checksum the served
bytes fail, then one they pass. -/
theorem c3_download_atomic_witness :
    tmpName "data.zip".data ≠ "data.zip".data ∧
    download 7 (fun c => .ok (c == 8)) ⟨none, none, none, none, false⟩ =
      (⟨none, none, none, none, false⟩,
        [Eff.netDownload, Eff.writeTmp, Eff.unlinkTmp],
        some (PyErr.runtimeError "Downloaded file checksum does not match")) ∧
    download 7 (fun c => .ok (c == 7)) ⟨none, none, none, none, false⟩ =
      (⟨none, some 7, none, none, false⟩,
        [Eff.netDownload, Eff.writeTmp, Eff.renameTmp], none) := by
  have h := c3_download_atomic "data.zip".data ⟨none, none, none, none, false⟩ 7
    (fun c => .ok (c == 8))
    (Downloader.init "data.zip".data none none false true)
    ⟨fun _ => false, fun _ => false, fun _ _ => []⟩
  have h2 := c3_download_atomic "data.zip".data ⟨none, none, none, none, false⟩ 7
    (fun c => .ok (c == 7))
    (Downloader.init "data.zip".data none none false true)
    ⟨fun _ => false, fun _ => false, fun _ _ => []⟩
  exact ⟨h.1, h.2.1 rfl, h2.2.2.1 rfl⟩

theorem splitFirst_append (sep : Char) (a b : List Char) (h : sep ∉ a) :
    splitFirst sep (a ++ sep :: b) = some (a, b) := by
  induction a with
  | nil => simp [splitFirst]
  | cons c rest ih =>
    have hc : ¬ c = sep := by
      intro hcc
      exact h (by simp [hcc])
    have hr : sep ∉ rest := fun hm => h (List.mem_cons_of_mem c hm)
    simp [splitFirst, hc, ih hr]

/-- C7 (amended): an unsupported hash algorithm in the checksum string is not
detected at construction — `Downloader.__init__` stores the string
unvalidated — and the `ValueError` is raised by the digest computation at the
first verification that uses it. -/
theorem c7_algo_error_deferred (hl : HashLib) (alg rest fname : List Char)
    (atype : Option ArchiveType) (hasDP : Bool) (c : Nat)
    (hlow : pyLower alg = alg)
    (havail : hl.available alg = false)
    (hbase : baseAlgos.contains alg = false)
    (hattr : hl.hasAttr alg = false)
    (hcolon : ':' ∉ alg) :
    Downloader.verifyC
        (Downloader.init fname (some (alg ++ ':' :: rest)) atype hasDP false)
        hl c
      = .error (PyErr.valueError "Unsupported hash algorithm") := by
  have hne : ¬ (alg ++ ':' :: rest = []) := by simp
  have hcond : ¬ hl.available alg ∧ ¬ baseAlgos.contains alg := by
    constructor
    · simp [havail]
    · simpa using hbase
  simp only [Downloader.verifyC, Downloader.init, verify_checksum, checksum,
    Option.isNone_some, Bool.or_false, Bool.false_eq_true, if_false,
    if_neg hne, splitFirst_append ':' alg rest hcolon, hlow,
    if_pos hcond, hattr]

/-- C7 amended-claim witness: the unsupported name `md42`, in an environment
offering no algorithms, errors at the first verification. -/
theorem c7_algo_error_deferred_witness :
    Downloader.verifyC
        (Downloader.init "d.zip".data (some ("md42".data ++ ':' :: "abcd".data))
          none false false)
        ⟨fun _ => false, fun _ => false, fun _ _ => []⟩ 0
      = .error (PyErr.valueError "Unsupported hash algorithm") :=
  c7_algo_error_deferred ⟨fun _ => false, fun _ => false, fun _ _ => []⟩
    "md42".data "abcd".data "d.zip".data none false 0
    (by decide) rfl (by decide) rfl (by decide)

/-- C1: when the persisted status for the manager's dataset identifier is
`OK` (the status file parses and its entry for the identifier reads `OK`),
the "ensure ready" check returns immediately: no download, verification,
extraction, directory deletion, patch call or status-file write occurs (the
effect trace is empty) and the filesystem state — whatever it is, in
particular whether or not the data directory exists — is unchanged. -/
theorem c1_ok_status_short_circuits (m : Manager) (hl : HashLib) (net : Nat)
    (fs : FS) (content : List Char) (d : List (List Char × List Char))
    (hfile : fs.statusFile = some content)
    (hparse : loadKv content = .ok d)
    (hok : dictFind d m.dataset_id = some "OK".data) :
    managerRun m hl net fs = (fs, [], none) := by
  have hgs : getStatus m.dataset_id fs = (Status.OK, fs, []) := by
    simp only [getStatus, hfile, hparse, hok, Option.getD_some]
    rfl
  unfold managerRun
  rw [hgs]
  rfl

/-- C1 witness: a manager over a status file holding `ds:OK`, with a stale
filesystem where the data directory is absent, returns with an empty trace
and the state unchanged. -/
theorem c1_ok_status_short_circuits_witness :
    managerRun
      ⟨"ds".data, "root/data".data, some [],
        Downloader.init "d.zip".data none none true true⟩
      ⟨fun _ => false, fun _ => false, fun _ _ => []⟩ 0
      ⟨some "ds:OK\n".data, none, none, none, false⟩
    = (⟨some "ds:OK\n".data, none, none, none, false⟩, [], none) :=
  c1_ok_status_short_circuits _ _ 0 _ "ds:OK\n".data [("ds".data, "OK".data)]
    rfl (by decide) (by decide)

/-! ### Frame lemmas for C2: fetch-extract never touches the status file -/

theorem download_statusFile_eq (net : Nat) (vf : Nat → Except PyErr Bool)
    (fs : FS) : (download net vf fs).1.statusFile = fs.statusFile := by
  unfold download
  cases vf net with
  | error e => rfl
  | ok b => cases b <;> rfl

theorem download_no_write (net : Nat) (vf : Nat → Except PyErr Bool)
    (fs : FS) : Eff.writeStatusFile ∉ (download net vf fs).2.1 := by
  unfold download
  cases vf net with
  | error e => simp
  | ok b => cases b <;> simp

theorem extractM_statusFile_eq (dv : Downloader) (fs : FS) :
    (Downloader.extractM dv fs).1.statusFile = fs.statusFile := by
  unfold Downloader.extractM extractHelper
  cases hfa : fs.artifact with
  | none => rfl
  | some c =>
    cases hdet : detect_archive_type dv.filename with
    | error e =>
      by_cases hdp : dv.hasDataPath && fs.dataDir.isSome <;> simp [hdp, hdet]
    | ok t =>
      by_cases hdp : dv.hasDataPath && fs.dataDir.isSome <;> simp [hdp, hdet]

theorem extractM_no_write (dv : Downloader) (fs : FS) :
    Eff.writeStatusFile ∉ (Downloader.extractM dv fs).2.1 := by
  unfold Downloader.extractM extractHelper
  cases hfa : fs.artifact with
  | none => simp
  | some c =>
    cases hdet : detect_archive_type dv.filename with
    | error e =>
      by_cases hdp : dv.hasDataPath && fs.dataDir.isSome <;> simp [hdp, hdet]
    | ok t =>
      by_cases hdp : dv.hasDataPath && fs.dataDir.isSome <;> simp [hdp, hdet]

theorem dae_statusFile_eq (dv : Downloader) (hl : HashLib) (net : Nat)
    (fs : FS) :
    (Downloader.download_and_extract dv hl net fs).1.statusFile
      = fs.statusFile := by
  unfold Downloader.download_and_extract
  cases hfa : fs.artifact with
  | none =>
    rcases hD : download net (dv.verifyC hl) fs with ⟨fs1, tr1, err⟩
    have h1 : fs1.statusFile = fs.statusFile := by
      rw [← download_statusFile_eq net (dv.verifyC hl) fs, hD]
    cases err with
    | some e => simp [hD, h1]
    | none =>
      rcases hE : dv.extractM fs1 with ⟨fs2, tr2, err2⟩
      have h2 : fs2.statusFile = fs1.statusFile := by
        rw [← extractM_statusFile_eq dv fs1, hE]
      simp [hD, hE, h2, h1]
  | some c =>
    cases hv : dv.verifyC hl c with
    | error e => simp [hv]
    | ok b =>
      cases b with
      | true =>
        rcases hE : dv.extractM fs with ⟨fs2, tr2, err2⟩
        have h2 : fs2.statusFile = fs.statusFile := by
          rw [← extractM_statusFile_eq dv fs, hE]
        simp [hv, hE, h2]
      | false =>
        rcases hD : download net (dv.verifyC hl) fs with ⟨fs1, tr1, err⟩
        have h1 : fs1.statusFile = fs.statusFile := by
          rw [← download_statusFile_eq net (dv.verifyC hl) fs, hD]
        cases err with
        | some e => simp [hv, hD, h1]
        | none =>
          rcases hE : dv.extractM fs1 with ⟨fs2, tr2, err2⟩
          have h2 : fs2.statusFile = fs1.statusFile := by
            rw [← extractM_statusFile_eq dv fs1, hE]
          simp [hv, hD, hE, h2, h1]

theorem dae_no_write (dv : Downloader) (hl : HashLib) (net : Nat) (fs : FS) :
    Eff.writeStatusFile ∉ (Downloader.download_and_extract dv hl net fs).2.1 := by
  unfold Downloader.download_and_extract
  cases hfa : fs.artifact with
  | none =>
    rcases hD : download net (dv.verifyC hl) fs with ⟨fs1, tr1, err⟩
    have h1 : Eff.writeStatusFile ∉ tr1 := by
      have := download_no_write net (dv.verifyC hl) fs
      rw [hD] at this
      exact this
    cases err with
    | some e => simpa [hD] using h1
    | none =>
      rcases hE : dv.extractM fs1 with ⟨fs2, tr2, err2⟩
      have h2 : Eff.writeStatusFile ∉ tr2 := by
        have := extractM_no_write dv fs1
        rw [hE] at this
        exact this
      simp [hD, hE, h1, h2]
  | some c =>
    cases hv : dv.verifyC hl c with
    | error e => simp [hv]
    | ok b =>
      cases b with
      | true =>
        rcases hE : dv.extractM fs with ⟨fs2, tr2, err2⟩
        have h2 : Eff.writeStatusFile ∉ tr2 := by
          have := extractM_no_write dv fs
          rw [hE] at this
          exact this
        simpa [hv, hE] using h2
      | false =>
        rcases hD : download net (dv.verifyC hl) fs with ⟨fs1, tr1, err⟩
        have h1 : Eff.writeStatusFile ∉ tr1 := by
          have := download_no_write net (dv.verifyC hl) fs
          rw [hD] at this
          exact this
        cases err with
        | some e => simpa [hv, hD] using h1
        | none =>
          rcases hE : dv.extractM fs1 with ⟨fs2, tr2, err2⟩
          have h2 : Eff.writeStatusFile ∉ tr2 := by
            have := extractM_no_write dv fs1
            rw [hE] at this
            exact this
          simp [hv, hD, hE, h1, h2]

/-! ### `getStatus` facts for C2 -/

/-- The four computation shapes of `getStatus`, as rewrite equations. -/
theorem getStatus_eq_none (dataset_id : List Char) (fs : FS)
    (hsf : fs.statusFile = none) :
    getStatus dataset_id fs = (Status.NONE, fs, []) := by
  unfold getStatus
  rw [hsf]

theorem getStatus_eq_corrupt (dataset_id : List Char) (fs : FS)
    (c : List Char) (e : PyErr) (hsf : fs.statusFile = some c)
    (hlk : loadKv c = .error e) :
    getStatus dataset_id fs =
      (Status.NONE, { fs with statusFile := none }, [Eff.unlinkStatusFile]) := by
  unfold getStatus
  rw [hsf]
  simp [hlk]

theorem getStatus_eq_parsed (dataset_id : List Char) (fs : FS)
    (c : List Char) (d : List (List Char × List Char)) (st : Status)
    (hsf : fs.statusFile = some c) (hlk : loadKv c = .ok d)
    (hso : statusOfString ((dictFind d dataset_id).getD "NONE".data) = some st) :
    getStatus dataset_id fs = (st, fs, []) := by
  unfold getStatus
  rw [hsf]
  simp [hlk, hso]

theorem getStatus_eq_unknown (dataset_id : List Char) (fs : FS)
    (c : List Char) (d : List (List Char × List Char))
    (hsf : fs.statusFile = some c) (hlk : loadKv c = .ok d)
    (hso : statusOfString ((dictFind d dataset_id).getD "NONE".data) = none) :
    getStatus dataset_id fs = (Status.NONE, fs, []) := by
  unfold getStatus
  rw [hsf]
  simp [hlk, hso]

theorem getStatus_trace (dataset_id : List Char) (fs : FS) :
    (getStatus dataset_id fs).2.2 = [] ∨
    (getStatus dataset_id fs).2.2 = [Eff.unlinkStatusFile] := by
  cases hsf : fs.statusFile with
  | none => rw [getStatus_eq_none dataset_id fs hsf]; left; rfl
  | some c =>
    cases hlk : loadKv c with
    | error e => rw [getStatus_eq_corrupt dataset_id fs c e hsf hlk]; right; rfl
    | ok d =>
      cases hso : statusOfString ((dictFind d dataset_id).getD "NONE".data) with
      | none => rw [getStatus_eq_unknown dataset_id fs c d hsf hlk hso]; left; rfl
      | some st => rw [getStatus_eq_parsed dataset_id fs c d st hsf hlk hso]; left; rfl

/-- Reading the status depends only on the status file. -/
theorem getStatus_fst_congr (dataset_id : List Char) (fs fs' : FS)
    (h : fs'.statusFile = fs.statusFile) :
    (getStatus dataset_id fs').1 = (getStatus dataset_id fs).1 := by
  cases hsf : fs.statusFile with
  | none =>
    rw [getStatus_eq_none dataset_id fs hsf,
      getStatus_eq_none dataset_id fs' (h.trans hsf)]
  | some c =>
    cases hlk : loadKv c with
    | error e =>
      rw [getStatus_eq_corrupt dataset_id fs c e hsf hlk,
        getStatus_eq_corrupt dataset_id fs' c e (h.trans hsf) hlk]
    | ok d =>
      cases hso : statusOfString ((dictFind d dataset_id).getD "NONE".data) with
      | none =>
        rw [getStatus_eq_unknown dataset_id fs c d hsf hlk hso,
          getStatus_eq_unknown dataset_id fs' c d (h.trans hsf) hlk hso]
      | some st =>
        rw [getStatus_eq_parsed dataset_id fs c d st hsf hlk hso,
          getStatus_eq_parsed dataset_id fs' c d st (h.trans hsf) hlk hso]

/-- Re-reading the status after a read returns the same status (also when the
first read deleted a corrupt file). -/
theorem getStatus_fst_idem (dataset_id : List Char) (fs : FS) :
    (getStatus dataset_id (getStatus dataset_id fs).2.1).1
      = (getStatus dataset_id fs).1 := by
  cases hsf : fs.statusFile with
  | none =>
    rw [getStatus_eq_none dataset_id fs hsf]
    rw [getStatus_eq_none dataset_id fs hsf]
  | some c =>
    cases hlk : loadKv c with
    | error e =>
      rw [getStatus_eq_corrupt dataset_id fs c e hsf hlk]
      rw [getStatus_eq_none dataset_id { fs with statusFile := none } rfl]
    | ok d =>
      cases hso : statusOfString ((dictFind d dataset_id).getD "NONE".data) with
      | none =>
        rw [getStatus_eq_unknown dataset_id fs c d hsf hlk hso]
        rw [getStatus_eq_unknown dataset_id fs c d hsf hlk hso]
      | some st =>
        rw [getStatus_eq_parsed dataset_id fs c d st hsf hlk hso]
        rw [getStatus_eq_parsed dataset_id fs c d st hsf hlk hso]

/-! ### Patch-loop characterization for C2 -/

theorem applyPatchesGo_ok (arg : List Char) (ps : List PatchObj)
    (h : ∀ p ∈ ps, patchOk p arg) :
    applyPatchesGo arg ps = (ps.map (fun _ => Eff.patchCall arg), none) := by
  induction ps with
  | nil => rfl
  | cons p rest ih =>
    cases p with
    | notCallable =>
      exact False.elim (h PatchObj.notCallable (by simp))
    | callable f =>
      have hf : f arg = .ok () := h (PatchObj.callable f) (by simp)
      have hrest := ih (fun q hq => h q (List.mem_cons_of_mem _ hq))
      simp [applyPatchesGo, hf, hrest]

theorem applyPatchesGo_fail (arg : List Char) (good rest : List PatchObj)
    (bad : PatchObj) (e : PyErr)
    (hgood : ∀ p ∈ good, patchOk p arg)
    (hbad : patchFails bad arg e) :
    applyPatchesGo arg (good ++ bad :: rest) =
      (good.map (fun _ => Eff.patchCall arg) ++ failCallTrace bad arg,
        some e) := by
  induction good with
  | nil =>
    cases bad with
    | notCallable =>
      have he : e = PyErr.valueError "Patch is not callable" := hbad
      simp [applyPatchesGo, failCallTrace, he]
    | callable f =>
      have hf : f arg = .error e := hbad
      simp [applyPatchesGo, failCallTrace, hf]
  | cons p ps ih =>
    cases p with
    | notCallable =>
      exact False.elim (hgood PatchObj.notCallable (by simp))
    | callable f =>
      have hf : f arg = .ok () := hgood (PatchObj.callable f) (by simp)
      have hrest := ih (fun q hq => hgood q (List.mem_cons_of_mem _ hq))
      simp [applyPatchesGo, hf, hrest]

/-- `d[k] = v` makes `k` resolve to `v`. -/
theorem dictFind_dictUpd_self {α β : Type} [BEq α] [LawfulBEq α]
    (d : List (α × β)) (k : α) (v : β) :
    dictFind (dictUpd d k v) k = some v := by
  induction d with
  | nil => simp [dictUpd, dictFind]
  | cons p d ih =>
    cases hp : (p.1 == k) with
    | true =>
      have hany : ((p :: d).any fun q => q.1 == k) = true := by
        simp [List.any_cons, hp]
      simp [dictUpd, hany, hp, dictFind]
    | false =>
      cases hd : (d.any fun q => q.1 == k) with
      | true =>
        have hany : ((p :: d).any fun q => q.1 == k) = true := by
          simp [List.any_cons, hd]
        have ihd : dictFind (d.map fun q => if q.1 == k then (k, v) else q) k
            = some v := by
          have hud : dictUpd d k v
              = d.map fun q => if q.1 == k then (k, v) else q := by
            simp [dictUpd, hd]
          rw [← hud]
          exact ih
        simp only [dictUpd, hany, if_true, List.map_cons, hp, Bool.false_eq_true,
          if_false]
        simpa [dictFind, List.find?, hp] using ihd
      | false =>
        have hany : ((p :: d).any fun q => q.1 == k) = false := by
          simp [List.any_cons, hp, hd]
        have ihd : dictFind (d ++ [(k, v)]) k = some v := by
          have hud : dictUpd d k v = d ++ [(k, v)] := by
            simp [dictUpd, hd]
          rw [← hud]
          exact ih
        simp only [dictUpd, hany, Bool.false_eq_true, if_false, List.cons_append]
        simpa [dictFind, List.find?, hp] using ihd

/-- C2: on a run with persisted status not `OK` whose fetch-extract step
succeeds, the patches are applied after fetch-extract, in list order, each
called with the data-directory path string; when every patch succeeds, `OK`
is persisted for the identifier and the status write is the last effect;
when a patch raises (or a list entry is not callable, which raises the
`ValueError` before any call of it), that exception propagates out of the
run, only the patches before it were called, no status write happens, and
the persisted status reads the same as before the run. -/
theorem c2_patches_gate_ok_write (m : Manager) (hl : HashLib) (net : Nat)
    (fs : FS)
    (hst : (getStatus m.dataset_id fs).1 ≠ Status.OK)
    (fs2 : FS) (tr2 : List Eff)
    (hdv : m.dv.download_and_extract hl net (getStatus m.dataset_id fs).2.1
            = (fs2, tr2, none)) :
    (∀ ps, m.patches = some ps → (∀ p ∈ ps, patchOk p m.data_path) →
      ∃ d, (managerRun m hl net fs).2.2 = none ∧
        (managerRun m hl net fs).1.statusFile = some (saveKv d) ∧
        dictFind d m.dataset_id = some "OK".data ∧
        (managerRun m hl net fs).2.1 =
          (getStatus m.dataset_id fs).2.2 ++ tr2
            ++ ps.map (fun _ => Eff.patchCall m.data_path)
            ++ [Eff.writeStatusFile]) ∧
    (∀ good bad rest e, m.patches = some (good ++ bad :: rest) →
      (∀ p ∈ good, patchOk p m.data_path) →
      patchFails bad m.data_path e →
      (managerRun m hl net fs).2.2 = some e ∧
      (getStatus m.dataset_id (managerRun m hl net fs).1).1
        = (getStatus m.dataset_id fs).1 ∧
      Eff.writeStatusFile ∉ (managerRun m hl net fs).2.1 ∧
      (managerRun m hl net fs).2.1 =
        (getStatus m.dataset_id fs).2.2 ++ tr2
          ++ good.map (fun _ => Eff.patchCall m.data_path)
          ++ failCallTrace bad m.data_path) := by
  rcases hgs : getStatus m.dataset_id fs with ⟨st0, fs1, tr1⟩
  simp only [hgs] at hdv hst ⊢
  have hfs2sf : fs2.statusFile = fs1.statusFile := by
    have h := dae_statusFile_eq m.dv hl net fs1
    rw [hdv] at h
    exact h
  have hfs1st : (getStatus m.dataset_id fs1).1 = st0 := by
    have h := getStatus_fst_idem m.dataset_id fs
    rw [hgs] at h
    exact h
  have htr2 : Eff.writeStatusFile ∉ tr2 := by
    have h := dae_no_write m.dv hl net fs1
    rw [hdv] at h
    exact h
  have htr1 : tr1 = [] ∨ tr1 = [Eff.unlinkStatusFile] := by
    have h := getStatus_trace m.dataset_id fs
    rw [hgs] at h
    exact h
  have hrunFail : ∀ tr3 e, applyPatches m.data_path m.patches = (tr3, some e) →
      managerRun m hl net fs = (fs2, tr1 ++ tr2 ++ tr3, some e) := by
    intro tr3 e hap
    unfold managerRun
    rw [hgs]
    dsimp only
    rw [if_neg hst, hdv, hap]
  have hrunOk : ∀ tr3, applyPatches m.data_path m.patches = (tr3, none) →
      managerRun m hl net fs =
        ((setStatus m.dataset_id Status.OK fs2).1,
          tr1 ++ tr2 ++ tr3 ++ (setStatus m.dataset_id Status.OK fs2).2,
          none) := by
    intro tr3 hap
    unfold managerRun
    rw [hgs]
    dsimp only
    rw [if_neg hst, hdv, hap]
  constructor
  · intro ps hps hok
    have hap : applyPatches m.data_path m.patches =
        (ps.map (fun _ => Eff.patchCall m.data_path), none) := by
      rw [hps]
      exact applyPatchesGo_ok m.data_path ps hok
    have hrun := hrunOk _ hap
    refine ⟨dictUpd
        (match fs2.statusFile with
          | none => []
          | some c =>
            match loadKv c with
            | .ok d => d
            | .error _ => []) m.dataset_id Status.OK.value, ?_, ?_, ?_, ?_⟩
    · rw [hrun]
    · rw [hrun]
      rfl
    · exact dictFind_dictUpd_self _ m.dataset_id Status.OK.value
    · rw [hrun]
      simp [List.append_assoc, setStatus]
  · intro good bad rest e hps hgood hbad
    have hap : applyPatches m.data_path m.patches =
        (good.map (fun _ => Eff.patchCall m.data_path)
          ++ failCallTrace bad m.data_path, some e) := by
      rw [hps]
      exact applyPatchesGo_fail m.data_path good rest bad e hgood hbad
    have hrun := hrunFail _ _ hap
    refine ⟨?_, ?_, ?_, ?_⟩
    · rw [hrun]
    · rw [hrun]
      dsimp only
      rw [getStatus_fst_congr m.dataset_id fs1 fs2 hfs2sf]
      exact hfs1st
    · rw [hrun]
      dsimp only
      intro hmem
      rcases List.mem_append.mp hmem with hmem | hmem
      · rcases List.mem_append.mp hmem with hmem | hmem
        · rcases htr1 with rfl | rfl <;> simp at hmem
        · exact htr2 hmem
      · rcases List.mem_append.mp hmem with hmem | hmem
        · simp at hmem
        · cases bad <;> simp [failCallTrace] at hmem
    · rw [hrun]
      simp [List.append_assoc]

/-- C2 witness: a fresh state (no status file), a passing download, two
patches where in the success scenario both run in order before the `OK`
write, and in the failure scenario the second patch raises, the error
propagates, and the status still reads `NONE`. -/
theorem c2_patches_gate_ok_write_witness :
    (∃ d,
      (managerRun
        ⟨"ds".data, "root/data".data,
          some [PatchObj.callable fun _ => .ok (),
                PatchObj.callable fun _ => .ok ()],
          Downloader.init "d.zip".data none none false true⟩
        ⟨fun _ => false, fun _ => false, fun _ _ => []⟩ 7
        ⟨none, none, none, none, false⟩).2.2 = none ∧
      (managerRun
        ⟨"ds".data, "root/data".data,
          some [PatchObj.callable fun _ => .ok (),
                PatchObj.callable fun _ => .ok ()],
          Downloader.init "d.zip".data none none false true⟩
        ⟨fun _ => false, fun _ => false, fun _ _ => []⟩ 7
        ⟨none, none, none, none, false⟩).1.statusFile = some (saveKv d) ∧
      dictFind d "ds".data = some "OK".data ∧
      (managerRun
        ⟨"ds".data, "root/data".data,
          some [PatchObj.callable fun _ => .ok (),
                PatchObj.callable fun _ => .ok ()],
          Downloader.init "d.zip".data none none false true⟩
        ⟨fun _ => false, fun _ => false, fun _ _ => []⟩ 7
        ⟨none, none, none, none, false⟩).2.1 =
        [] ++ [Eff.mkdirFolder, Eff.netDownload, Eff.writeTmp, Eff.renameTmp,
            Eff.mkdirExtract, Eff.extractArchive ArchiveType.zip]
          ++ [Eff.patchCall "root/data".data, Eff.patchCall "root/data".data]
          ++ [Eff.writeStatusFile]) ∧
    ((managerRun
        ⟨"ds".data, "root/data".data,
          some [PatchObj.callable fun _ => .ok (),
                PatchObj.callable fun _ => .error (PyErr.other "boom")],
          Downloader.init "d.zip".data none none false true⟩
        ⟨fun _ => false, fun _ => false, fun _ _ => []⟩ 7
        ⟨none, none, none, none, false⟩).2.2 = some (PyErr.other "boom") ∧
      (getStatus "ds".data
        (managerRun
          ⟨"ds".data, "root/data".data,
            some [PatchObj.callable fun _ => .ok (),
                  PatchObj.callable fun _ => .error (PyErr.other "boom")],
            Downloader.init "d.zip".data none none false true⟩
          ⟨fun _ => false, fun _ => false, fun _ _ => []⟩ 7
          ⟨none, none, none, none, false⟩).1).1 =
        (getStatus "ds".data ⟨none, none, none, none, false⟩).1 ∧
      Eff.writeStatusFile ∉
        (managerRun
          ⟨"ds".data, "root/data".data,
            some [PatchObj.callable fun _ => .ok (),
                  PatchObj.callable fun _ => .error (PyErr.other "boom")],
            Downloader.init "d.zip".data none none false true⟩
          ⟨fun _ => false, fun _ => false, fun _ _ => []⟩ 7
          ⟨none, none, none, none, false⟩).2.1) := by
  constructor
  · obtain ⟨hok, hfail⟩ := c2_patches_gate_ok_write
      ⟨"ds".data, "root/data".data,
        some [PatchObj.callable fun _ => .ok (),
              PatchObj.callable fun _ => .ok ()],
        Downloader.init "d.zip".data none none false true⟩
      ⟨fun _ => false, fun _ => false, fun _ _ => []⟩ 7
      ⟨none, none, none, none, false⟩ (by decide) _ _ rfl
    obtain ⟨d, h1, h2, h3, h4⟩ := hok _ rfl (by
      intro p hp
      simp only [List.mem_cons, List.not_mem_nil, or_false] at hp
      rcases hp with rfl | rfl <;> rfl)
    exact ⟨d, h1, h2, h3, h4⟩
  · obtain ⟨hok, hfail⟩ := c2_patches_gate_ok_write
      ⟨"ds".data, "root/data".data,
        some [PatchObj.callable fun _ => .ok (),
              PatchObj.callable fun _ => .error (PyErr.other "boom")],
        Downloader.init "d.zip".data none none false true⟩
      ⟨fun _ => false, fun _ => false, fun _ _ => []⟩ 7
      ⟨none, none, none, none, false⟩ (by decide) _ _ rfl
    obtain ⟨h1, h2, h3, h4⟩ := hfail [PatchObj.callable fun _ => .ok ()]
      (PatchObj.callable fun _ => .error (PyErr.other "boom")) [] (PyErr.other "boom")
      rfl (by
        intro p hp
        simp only [List.mem_cons, List.not_mem_nil, or_false] at hp
        rcases hp with rfl
        rfl) rfl
    exact ⟨h1, h2, h3⟩

/-! ### Line-level lemmas for the KV round trip (C9) -/

theorem splitLines_cons_ne (c : Char) (cs : List Char) (hc : ¬ c = '\n') :
    splitLines (c :: cs) =
      match splitLines cs with
      | [] => [[c]]
      | l :: ls => (c :: l) :: ls := by
  simp [splitLines, hc]

theorem splitLines_cons_nl (cs : List Char) :
    splitLines ('\n' :: cs) = ['\n'] :: splitLines cs := by
  simp [splitLines]

theorem splitLines_append : ∀ (l : List Char), l ≠ [] → '\n' ∉ l →
    ∀ rest, splitLines (l ++ '\n' :: rest) = (l ++ ['\n']) :: splitLines rest := by
  intro l
  induction l with
  | nil => intro h; exact absurd rfl h
  | cons c l ih =>
    intro _ hnl rest
    have hc : ¬ c = '\n' := fun h => hnl (by simp [h])
    cases hl : l with
    | nil =>
      subst hl
      rw [List.cons_append, List.nil_append, splitLines_cons_ne c _ hc,
        splitLines_cons_nl]
      rfl
    | cons d l2 =>
      have hne2 : l ≠ [] := by rw [hl]; simp
      have hnl2 : '\n' ∉ l := fun h => hnl (List.mem_cons_of_mem _ h)
      have hrec := ih hne2 hnl2 rest
      rw [hl] at hrec
      rw [List.cons_append, splitLines_cons_ne c _ hc, hrec]
      rfl

theorem saveKv_splitLines (entries : List (List Char × List Char))
    (h : ∀ p ∈ entries, '\n' ∉ p.1 ∧ '\n' ∉ p.2) :
    splitLines (saveKv entries)
      = entries.map (fun p => p.1 ++ ':' :: (p.2 ++ ['\n'])) := by
  induction entries with
  | nil => rfl
  | cons p rest ih =>
    obtain ⟨hk, hv⟩ := h p (by simp)
    have hne : p.1 ++ ':' :: p.2 ≠ [] := by simp
    have hnl : '\n' ∉ p.1 ++ ':' :: p.2 := by
      simp only [List.mem_append, List.mem_cons]
      rintro (hm | hm | hm)
      · exact hk hm
      · exact absurd hm (by decide)
      · exact hv hm
    have hline : saveKv (p :: rest)
        = (p.1 ++ ':' :: p.2) ++ '\n' :: saveKv rest := by
      simp [saveKv, List.append_assoc]
    rw [hline, splitLines_append _ hne hnl,
      ih (fun q hq => h q (List.mem_cons_of_mem _ hq)), List.map_cons]
    congr 1
    simp [List.append_assoc]

theorem pyStrip_line (k v : List Char) (hk : k ≠ [])
    (hkh : ∀ c, k.head? = some c → isWS c = false)
    (hvl : ∀ c, v.getLast? = some c → isWS c = false) :
    pyStrip (k ++ ':' :: (v ++ ['\n'])) = k ++ ':' :: v := by
  obtain ⟨c, k', rfl⟩ : ∃ c k', k = c :: k' := by
    cases k with
    | nil => exact absurd rfl hk
    | cons c k' => exact ⟨c, k', rfl⟩
  have hc : isWS c = false := hkh c rfl
  have hstep1 : (c :: k' ++ ':' :: (v ++ ['\n'])).dropWhile isWS
      = c :: k' ++ ':' :: (v ++ ['\n']) := by
    rw [List.cons_append, List.dropWhile_cons, hc]
    simp
  have hX : c :: k' ++ ':' :: (v ++ ['\n']) = (c :: k' ++ ':' :: v) ++ ['\n'] := by
    simp [List.append_assoc]
  have hstep2 : ((c :: k' ++ ':' :: v) ++ ['\n']).reverse
      = '\n' :: (c :: k' ++ ':' :: v).reverse := by
    rw [List.reverse_append]
    rfl
  have hstep3 : (c :: k' ++ ':' :: v).reverse.dropWhile isWS
      = (c :: k' ++ ':' :: v).reverse := by
    rcases List.eq_nil_or_concat v with rfl | ⟨v', cl, rfl⟩
    · have hrev : (c :: k' ++ [':']).reverse = ':' :: (c :: k').reverse := by
        rw [List.reverse_append]
        rfl
      rw [hrev, List.dropWhile_cons, show isWS ':' = false from rfl]
      simp
    · simp only [List.concat_eq_append]
      have hcl : isWS cl = false := hvl cl (by simp)
      have hgrp : c :: k' ++ ':' :: (v' ++ [cl])
          = (c :: k' ++ ':' :: v') ++ [cl] := by
        simp [List.append_assoc]
      rw [hgrp, List.reverse_append, show [cl].reverse = [cl] from rfl,
        List.singleton_append, List.dropWhile_cons, hcl]
      simp
  calc pyStrip (c :: k' ++ ':' :: (v ++ ['\n']))
      = (((c :: k' ++ ':' :: (v ++ ['\n'])).dropWhile
          isWS).reverse.dropWhile isWS).reverse := rfl
    _ = ((c :: k' ++ ':' :: (v ++ ['\n'])).reverse.dropWhile isWS).reverse := by
          rw [hstep1]
    _ = (('\n' :: (c :: k' ++ ':' :: v).reverse).dropWhile isWS).reverse := by
          rw [hX, hstep2]
    _ = ((c :: k' ++ ':' :: v).reverse.dropWhile isWS).reverse := by
          rw [List.dropWhile_cons, show isWS '\n' = true from rfl]
          simp
    _ = (c :: k' ++ ':' :: v).reverse.reverse := by rw [hstep3]
    _ = c :: k' ++ ':' :: v := List.reverse_reverse _

theorem loadKvLines_clean :
    ∀ (entries acc : List (List Char × List Char)),
    (∀ p ∈ entries, p.1 ≠ [] ∧ ':' ∉ p.1 ∧
      (∀ c, p.1.head? = some c → isWS c = false) ∧
      (∀ c, p.2.getLast? = some c → isWS c = false)) →
    (∀ p ∈ entries, acc.any (fun q => q.1 == p.1) = false) →
    (entries.map Prod.fst).Nodup →
    loadKvLines (entries.map (fun p => p.1 ++ ':' :: (p.2 ++ ['\n']))) acc
      = .ok (acc ++ entries) := by
  intro entries
  induction entries with
  | nil =>
    intro acc _ _ _
    simp [loadKvLines]
  | cons p rest ih =>
    intro acc hcond hdisj hnodup
    obtain ⟨hk, hcolon, hkh, hvl⟩ := hcond p (by simp)
    have hstrip : pyStrip (p.1 ++ ':' :: (p.2 ++ ['\n'])) = p.1 ++ ':' :: p.2 :=
      pyStrip_line p.1 p.2 hk hkh hvl
    have hsne : ¬ (p.1 ++ ':' :: p.2 = []) := by simp
    have hsplit : splitFirst ':' (p.1 ++ ':' :: p.2) = some (p.1, p.2) :=
      splitFirst_append ':' p.1 p.2 hcolon
    have hupd : dictUpd acc p.1 p.2 = acc ++ [(p.1, p.2)] := by
      simp [dictUpd, hdisj p (by simp)]
    have hnodup' : (rest.map Prod.fst).Nodup := (List.nodup_cons.mp hnodup).2
    have hhead : p.1 ∉ rest.map Prod.fst := (List.nodup_cons.mp hnodup).1
    have hdisj' : ∀ q ∈ rest,
        (acc ++ [(p.1, p.2)]).any (fun r => r.1 == q.1) = false := by
      intro q hq
      have h1 : acc.any (fun r => r.1 == q.1) = false :=
        hdisj q (List.mem_cons_of_mem _ hq)
      have h2 : (p.1 == q.1) = false := by
        by_contra hne
        have : p.1 = q.1 := by
          have := Bool.of_not_eq_false hne
          exact beq_iff_eq.mp this
        exact hhead (this ▸ List.mem_map_of_mem Prod.fst hq)
      simp [List.any_append, h1, h2]
    have hrec := ih (acc ++ [(p.1, p.2)])
      (fun q hq => hcond q (List.mem_cons_of_mem _ hq)) hdisj' hnodup'
    simp only [List.map_cons, loadKvLines, hstrip, if_neg hsne, hsplit, hupd,
      hrec]
    simp

/-- No-`'\r'` content passes the universal-newlines translation unchanged. -/
theorem unlAux_of_no_cr : ∀ cs : List Char, '\r' ∉ cs →
    unlAux false cs = cs := by
  intro cs
  induction cs with
  | nil => intro _; rfl
  | cons c rest ih =>
    intro h
    have hc : ¬ c = '\r' := fun hcc => h (by simp [hcc])
    have hr : '\r' ∉ rest := fun hm => h (List.mem_cons_of_mem _ hm)
    by_cases hn : c = '\n'
    · subst hn
      simp [unlAux, ih hr]
    · simp [unlAux, hn, hc, ih hr]

/-- `save_kv` output contains no `'\r'` when no key or value does. -/
theorem saveKv_no_cr (entries : List (List Char × List Char))
    (h : ∀ p ∈ entries, '\r' ∉ p.1 ∧ '\r' ∉ p.2) :
    '\r' ∉ saveKv entries := by
  induction entries with
  | nil => simp [saveKv]
  | cons p rest ih =>
    obtain ⟨hk, hv⟩ := h p (by simp)
    have hline : saveKv (p :: rest)
        = p.1 ++ ':' :: (p.2 ++ '\n' :: saveKv rest) := rfl
    rw [hline]
    simp only [List.mem_append, List.mem_cons]
    rintro (hm | hm | hm | hm | hm)
    · exact hk hm
    · exact absurd hm (by decide)
    · exact hv hm
    · exact absurd hm (by decide)
    · exact ih (fun q hq => h q (List.mem_cons_of_mem _ hq)) hm

/-- C9 (amended): `save_kv` then `load_kv` is the identity on every mapping
whose keys are non-empty, contain no `:` and no line-break character
(`'\n'` or `'\r'` — the text-mode read breaks lines at both), and do not
begin with a character of Python's whitespace class, and whose values
contain no line-break character and do not end with a whitespace-class
character — values may freely contain `:` since each line is split only on
its first `:`.  (The restrictions are forced because `load_kv` reads in
universal-newlines mode and strips each line before parsing it.) -/
theorem c9_kv_round_trip (entries : List (List Char × List Char))
    (hkey : ∀ p ∈ entries, p.1 ≠ [] ∧ ':' ∉ p.1 ∧ '\n' ∉ p.1 ∧ '\r' ∉ p.1 ∧
      (∀ c, p.1.head? = some c → isWS c = false))
    (hval : ∀ p ∈ entries, '\n' ∉ p.2 ∧ '\r' ∉ p.2 ∧
      (∀ c, p.2.getLast? = some c → isWS c = false))
    (hnodup : (entries.map Prod.fst).Nodup) :
    loadKv (saveKv entries) = .ok entries := by
  unfold loadKv unlTranslate
  rw [unlAux_of_no_cr (saveKv entries)
    (saveKv_no_cr entries
      (fun p hp => ⟨(hkey p hp).2.2.2.1, (hval p hp).2.1⟩))]
  rw [saveKv_splitLines entries
    (fun p hp => ⟨(hkey p hp).2.2.1, (hval p hp).1⟩)]
  have h := loadKvLines_clean entries []
    (fun p hp => ⟨(hkey p hp).1, (hkey p hp).2.1, (hkey p hp).2.2.2.2,
      (hval p hp).2.2⟩)
    (fun p _ => rfl) hnodup
  simpa using h

/-- C9 counterexample: three mappings meet every condition of the claim as
stated (keys non-empty, no `:` and no newline in keys, no newline in
values), yet none round-trips: a value with a trailing space loses it to the
line-strip; a value holding a bare carriage return between `b` and `c` makes
`load_kv` raise, because the text-mode read splits the line there and the
`c` remainder has no colon; a value with a trailing no-break space (U+00A0)
loses it, since Python `str.strip()` removes Unicode whitespace too. -/
theorem c9_counterexample :
    ("a".data ≠ [] ∧ ':' ∉ "a".data ∧ '\n' ∉ "a".data ∧ '\n' ∉ "b ".data ∧
      '\n' ∉ ['b', '\r', 'c'] ∧ '\n' ∉ ['b', '\u00A0']) ∧
    loadKv (saveKv [("a".data, "b ".data)]) = .ok [("a".data, "b".data)] ∧
    loadKv (saveKv [("a".data, "b ".data)]) ≠ .ok [("a".data, "b ".data)] ∧
    loadKv (saveKv [("a".data, ['b', '\r', 'c'])])
      = .error (PyErr.runtimeError "Error reading key-value file") ∧
    loadKv (saveKv [("a".data, ['b', '\u00A0'])])
      = .ok [("a".data, "b".data)] ∧
    loadKv (saveKv [("a".data, ['b', '\u00A0'])])
      ≠ .ok [("a".data, ['b', '\u00A0'])] := by
  decide

/-- C9 amended-claim witness: the mapping `{"a": "b:c"}` — whose value
contains `:` — round-trips exactly. -/
theorem c9_kv_round_trip_witness :
    loadKv (saveKv [("a".data, "b:c".data)]) = .ok [("a".data, "b:c".data)] :=
  c9_kv_round_trip [("a".data, "b:c".data)] (by decide) (by decide) (by decide)

end Datman
